import Mathlib

/-!
# Verification of the tyssue quasistatic relaxation / collision-correction core

Shallow embedding of `tyssue/collisions/solvers.py` and
`tyssue/solvers/quasistatic.py`.  Coordinates are modelled as rationals
(the Python code uses IEEE doubles; every claim under study is about the
algebraic/structural behaviour of the algorithms, not about rounding).

Conventions used throughout the embedding:

* A vertex is identified by a natural number (its `vert_df` index); an edge
  is a `(srce, trgt, face)` row of `edge_df`, identified by its position in
  the edge list.
* `Sheet.pos` is the current vertex-position table (`vert_df[coords]`); a
  position snapshot (`position_buffer`, upcast to `edge_buffer` by the code)
  is a second such table `buf`.  `_face_bbox` reads the source-vertex
  coordinates of a face's edges (`sx, sy, sz` columns), which equal the
  vertex positions of the edge sources after `geom.update_all`.
* pandas/numpy semantics of the era the code targets (pandas 0.24/0.25,
  numpy with `np.float`), which the final-assignment steps of
  `CollidingBoxes.solve_collisions` rely on:
  - `df[mask2d]` with a 2-d boolean ndarray takes the rows at
    `mask.nonzero()[0]`: each row is repeated once per `True` cell and rows
    with no `True` cell are dropped (full rows are kept, including their
    non-finite entries);
  - `groupby("vert").apply(min)` translates the builtin `min` to `np.min`,
    which reduces each (here single-row, possibly repeated) group
    column-wise, so it collapses the repeated rows back to one row per
    vertex with unchanged values;
  - `df.loc[labels, cols] = rhs` with duplicated labels, where `rhs` has
    exactly the selected (duplicated) index, writes positionally; with
    duplicated row positions the last write wins, hence the
    `correction_upper` block (concatenated second) overwrites the
    `correction_lower` block for any vertex present in both.
-/

/-- The three coordinate axes (`sheet.coords = ["x", "y", "z"]`). -/
inductive Axis where
  | x
  | y
  | z
deriving DecidableEq, Repr

/-- The list of all axes, in the order of `sheet.coords`. -/
def allAxes : List Axis := [Axis.x, Axis.y, Axis.z]

/-- One row of `edge_df`: source vertex, target vertex and owning face. -/
structure Edge where
  srce : ℕ
  trgt : ℕ
  face : ℕ
deriving DecidableEq, Repr

/-- The mesh data consumed by the collision resolver: the half-edge table and
the current vertex positions. -/
structure Sheet where
  edges : List Edge
  pos : ℕ → Axis → ℚ

/-- Minimum of a list of rationals (`points.min(axis=0)` for one column).
The Python call errors on an empty array; faces reached by the resolver own
at least one edge, so the default value for `[]` is never relevant there. -/
def listMin : List ℚ → ℚ
  | [] => 0
  | q :: qs => qs.foldl min q

/-- Maximum of a list of rationals (`points.max(axis=0)` for one column). -/
def listMax : List ℚ → ℚ
  | [] => 0
  | q :: qs => qs.foldl max q

/-- Per-axis bounding box of a face: `l` is the lower and `h` the upper edge
(`_face_bbox` returns the min/max of the source-vertex coordinates). -/
structure BBox where
  l : Axis → ℚ
  h : Axis → ℚ

/-- The source vertices of the edges owned by face `f`
(`edge_df[edge_df["face"] == f]`, column `srce`). -/
def faceSrces (s : Sheet) (f : ℕ) : List ℕ :=
  (s.edges.filter (fun e => e.face = f)).map Edge.srce

/-- `_face_bbox`: bounding box of a face from a position table `tbl`
(either the current positions or the pre-update snapshot). -/
def faceBBox (tbl : ℕ → Axis → ℚ) (srces : List ℕ) : BBox where
  l := fun a => listMin (srces.map (fun v => tbl v a))
  h := fun a => listMax (srces.map (fun v => tbl v a))

/-- `sign_change_l1h0`: on axis `a`, the relative order of face 1's lower
box edge and face 0's upper box edge flipped between the snapshot and the
current positions (`np.sign((bb1c.l - bb0c.h) * (bb1p.l - bb0p.h)) < 0`). -/
def scL1H0 (bb0c bb1c bb0p bb1p : BBox) (a : Axis) : Bool :=
  decide ((bb1c.l a - bb0c.h a) * (bb1p.l a - bb0p.h a) < 0)

/-- `sign_change_l0h1`: the mirror test with the two faces' roles swapped. -/
def scL0H1 (bb0c bb1c bb0p bb1p : BBox) (a : Axis) : Bool :=
  decide ((bb0c.l a - bb1c.h a) * (bb0p.l a - bb1p.h a) < 0)

/-- Result of `CollidingBoxes._collision_plane` for one face pair: the
vertices receiving a lower (resp. upper) bound, and the per-axis bound
values (`None` on axes that were not flagged — in pandas, columns absent
from the `lower_bound`/`upper_bound` frames). -/
structure PlaneOut where
  lowerVerts : List ℕ
  upperVerts : List ℕ
  lowerVal : Axis → Option ℚ
  upperVal : Axis → Option ℚ

/-- `CollidingBoxes._collision_plane`.  Compares the current and snapshot
bounding boxes of the two faces; on a sign change it solves for the
interpolated crossing coordinate on each flagged axis and returns the
bounds (`plane + shyness/2` below, `plane - shyness/2` above); with no sign
change on any axis it warns and returns `None` (here `none`). -/
def collisionPlane (s : Sheet) (buf : ℕ → Axis → ℚ) (f0 f1 : ℕ) (shyness : ℚ) :
    Option PlaneOut :=
  let s0 := faceSrces s f0
  let s1 := faceSrces s f1
  let bb0c := faceBBox s.pos s0
  let bb1c := faceBBox s.pos s1
  let bb0p := faceBBox buf s0
  let bb1p := faceBBox buf s1
  -- dr0 = bb0c - bb0p, dr1 = bb1c - bb1p
  let dr0h := fun a => bb0c.h a - bb0p.h a
  let dr0l := fun a => bb0c.l a - bb0p.l a
  let dr1h := fun a => bb1c.h a - bb1p.h a
  let dr1l := fun a => bb1c.l a - bb1p.l a
  if allAxes.any (scL1H0 bb0c bb1c bb0p bb1p) then
    -- face 0 was to the left of face 1 on the collision axis
    let plane := fun a =>
      (bb0p.h a * dr1l a - bb1p.l a * dr0h a) / (dr1l a - dr0h a)
    some { lowerVerts := s1
           upperVerts := s0
           lowerVal := fun a =>
             if scL1H0 bb0c bb1c bb0p bb1p a then some (plane a + shyness / 2) else none
           upperVal := fun a =>
             if scL1H0 bb0c bb1c bb0p bb1p a then some (plane a - shyness / 2) else none }
  else if allAxes.any (scL0H1 bb0c bb1c bb0p bb1p) then
    -- face 0 was to the right of face 1 on the collision axis
    let plane := fun a =>
      (bb1p.h a * dr0l a - bb0p.l a * dr1h a) / (dr0l a - dr1h a)
    some { lowerVerts := s0
           upperVerts := s1
           lowerVal := fun a =>
             if scL0H1 bb0c bb1c bb0p bb1p a then some (plane a + shyness / 2) else none
           upperVal := fun a =>
             if scL0H1 bb0c bb1c bb0p bb1p a then some (plane a - shyness / 2) else none }
  else
    -- "The collision was already present or its axis could not be determined"
    none

/-- Unordered equality of two face pairs (the `frozenset` semantics used to
deduplicate face pairs). -/
def unorderedEqv (p q : ℕ × ℕ) : Bool :=
  (p.1 == q.1 && p.2 == q.2) || (p.1 == q.2 && p.2 == q.1)

/-- Deduplication of a pair list up to unordered equality
(`set(map(frozenset, _face_pairs))`).  Python's set iteration order and the
orientation of the surviving representative are unspecified; we keep the
first occurrence in input orientation — every claim under study is
insensitive to this choice (for a pair with a single sign-changing pattern
the two `_collision_plane` branches are mirror images of each other, with
the same plane coordinate and the same lower/upper sides). -/
def dedupUnordered (l : List (ℕ × ℕ)) : List (ℕ × ℕ) :=
  l.foldl (fun acc p => if acc.any (fun q => unorderedEqv q p) then acc else acc ++ [p]) []

/-- Owning face of an edge id (`edge_df.loc[e, "face"]`).  A missing id
would be a `KeyError` in pandas; the detector only produces valid ids, so
the default row is never reached on the inputs of interest. -/
def faceOf (s : Sheet) (e : ℕ) : ℕ :=
  (s.edges.getD e ⟨0, 0, 0⟩).face

/-- `CollidingBoxes._get_intersecting_faces`: map each intersecting edge to
its owning face, deduplicate the face pairs with unordered (set) semantics
and drop the pairs that do not resolve to exactly two distinct faces. -/
def getIntersectingFaces (s : Sheet) (edgePairs : List (ℕ × ℕ)) : List (ℕ × ℕ) :=
  (dedupUnordered (edgePairs.map (fun pr => (faceOf s pr.1, faceOf s pr.2)))).filter
    (fun pr => pr.1 ≠ pr.2)

/-- The vertices of the bounds tables: source vertices of every edge owned
by a face of some colliding pair
(`edge_df[edge_df["face"].isin(face_pairs.ravel())]["srce"].unique()`). -/
def collidingVertsOf (s : Sheet) (facePairs : List (ℕ × ℕ)) : List ℕ :=
  ((s.edges.filter (fun e =>
      facePairs.any (fun pr => pr.1 == e.face || pr.2 == e.face))).map Edge.srce).dedup

/-- One aggregation step of the lower-bounds table
(`lower_bounds.loc[...] = np.maximum(sub_lower, lower)`; the table is
initialised at `-inf`, modelled by `none`). -/
def updateLower (tbl : ℕ → Axis → Option ℚ) (pl : PlaneOut) : ℕ → Axis → Option ℚ :=
  fun v a =>
    if v ∈ pl.lowerVerts then
      match pl.lowerVal a, tbl v a with
      | some nb, some ob => some (max ob nb)
      | some nb, none => some nb
      | none, o => o
    else tbl v a

/-- One aggregation step of the upper-bounds table
(`upper_bounds.loc[...] = np.minimum(sub_upper, upper)`, initialised at
`+inf`). -/
def updateUpper (tbl : ℕ → Axis → Option ℚ) (pl : PlaneOut) : ℕ → Axis → Option ℚ :=
  fun v a =>
    if v ∈ pl.upperVerts then
      match pl.upperVal a, tbl v a with
      | some nb, some ob => some (min ob nb)
      | some nb, none => some nb
      | none, o => o
    else tbl v a

/-- The collision planes of all face pairs (`get_limits`). -/
def planesOf (s : Sheet) (buf : ℕ → Axis → ℚ) (facePairs : List (ℕ × ℕ)) (shyness : ℚ) :
    List (Option PlaneOut) :=
  facePairs.map (fun pr => collisionPlane s buf pr.1 pr.2 shyness)

/-- Fold a list of optional planes into a bounds table (`None` planes are
skipped by the `if lower is None: continue` branch). -/
def foldBounds (upd : (ℕ → Axis → Option ℚ) → PlaneOut → ℕ → Axis → Option ℚ)
    (planes : List (Option PlaneOut)) : ℕ → Axis → Option ℚ :=
  planes.foldl (fun tbl pl? => match pl? with | none => tbl | some pl => upd tbl pl)
    (fun _ _ => none)

/-- Aggregated lower bounds (running maximum across all planes);
`none` models the initial `-inf`. -/
def aggLowerOf (s : Sheet) (buf : ℕ → Axis → ℚ) (edgePairs : List (ℕ × ℕ)) (shyness : ℚ) :
    ℕ → Axis → Option ℚ :=
  foldBounds updateLower (planesOf s buf (getIntersectingFaces s edgePairs) shyness)

/-- Aggregated upper bounds (running minimum across all planes);
`none` models the initial `+inf`. -/
def aggUpperOf (s : Sheet) (buf : ℕ → Axis → ℚ) (edgePairs : List (ℕ × ℕ)) (shyness : ℚ) :
    ℕ → Axis → Option ℚ :=
  foldBounds updateUpper (planesOf s buf (getIntersectingFaces s edgePairs) shyness)

/-- `plane_found` at the end of the aggregation loop, including the
`if upper_bounds.shape[0] == 0: plane_found = False` override. -/
def planeFoundOf (s : Sheet) (buf : ℕ → Axis → ℚ) (edgePairs : List (ℕ × ℕ)) (shyness : ℚ) :
    Bool :=
  let facePairs := getIntersectingFaces s edgePairs
  let found := (planesOf s buf facePairs shyness).any Option.isSome
  if (collidingVertsOf s facePairs).isEmpty then false else found

/-- The vertices kept by `lower_bounds[np.isfinite(...)].groupby("vert")`:
rows are repeated once per finite cell, so exactly the vertices with at
least one finite lower bound survive, with their full row of values. -/
def lowerKeepOf (s : Sheet) (buf : ℕ → Axis → ℚ) (edgePairs : List (ℕ × ℕ)) (shyness : ℚ) :
    List ℕ :=
  (collidingVertsOf s (getIntersectingFaces s edgePairs)).filter
    (fun v => allAxes.any (fun a => (aggLowerOf s buf edgePairs shyness v a).isSome))

/-- The vertices with at least one finite upper bound (see `lowerKeepOf`). -/
def upperKeepOf (s : Sheet) (buf : ℕ → Axis → ℚ) (edgePairs : List (ℕ × ℕ)) (shyness : ℚ) :
    List ℕ :=
  (collidingVertsOf s (getIntersectingFaces s edgePairs)).filter
    (fun v => allAxes.any (fun a => (aggUpperOf s buf edgePairs shyness v a).isSome))

/-- Apply a list of row writes to a position table.  This models the final
`vert_df.loc[corrections.index.values, coords] = corrections`: the writes
are positional and with duplicated vertex labels the last one wins. -/
def applyWrites (p : ℕ → Axis → ℚ) (ws : List (ℕ × (Axis → ℚ))) : ℕ → Axis → ℚ :=
  ws.foldl (fun q w => fun u a => if u = w.1 then w.2 a else q u a) p

/-- `CollidingBoxes.__init__` followed by `CollidingBoxes.solve_collisions`:
compute the face pairs and the per-vertex bounds, and clamp the vertex
positions.  Returns the new sheet and the Python return value
(`some 0` for the `return 0` branch, `none` for the implicit `return None`). -/
def solveCollisions (s : Sheet) (buf : ℕ → Axis → ℚ) (edgePairs : List (ℕ × ℕ))
    (shyness : ℚ) : Sheet × Option ℕ :=
  if planeFoundOf s buf edgePairs shyness then
    let aggL := aggLowerOf s buf edgePairs shyness
    let aggU := aggUpperOf s buf edgePairs shyness
    -- correction_lower = np.maximum(position, lower_bounds)  (max(x, -inf) = x)
    let corrLower := (lowerKeepOf s buf edgePairs shyness).map (fun v =>
      (v, fun a => match aggL v a with
        | none => s.pos v a
        | some lb => max (s.pos v a) lb))
    -- correction_upper = np.minimum(position, upper_bounds)  (min(x, +inf) = x)
    let corrUpper := (upperKeepOf s buf edgePairs shyness).map (fun v =>
      (v, fun a => match aggU v a with
        | none => s.pos v a
        | some ub => min (s.pos v a) ub))
    -- corrections = pd.concat((correction_lower, correction_upper)); last write wins
    ({ s with pos := applyWrites s.pos (corrLower ++ corrUpper) }, none)
  else (s, some 0)

/-- The `solve_collisions` decorator's inner `with_collision_correction`:
snapshot the positions, run the wrapped position update, detect
intersections, resolve them if any, refresh the geometry, and hand back the
wrapped call's return value.  `geomUpdate` abstracts `geom.update_all` and
`detector` abstracts `self_intersections`; `shyness` is the
`sheet.settings.get("shyness", 1e-10)` value. -/
def withCollisionCorrection {ρ : Type} (geomUpdate : Sheet → Sheet)
    (detector : Sheet → List (ℕ × ℕ)) (shyness : ℚ)
    (f : Sheet → Sheet × ρ) (s : Sheet) : Sheet × ρ :=
  let buffer := s.pos
  let r := f s
  let pairs := detector r.1
  let s2 := if pairs.length ≠ 0 then (solveCollisions r.1 buffer pairs shyness).1 else r.1
  (geomUpdate s2, r.2)

/-! ## A concrete two-pair collision scenario

Four digon faces on the x axis, all y/z coordinates zero.  Face pair
`(0, 1)` collides around `x = 20` (face 1 moved left through face 0's right
edge) and face pair `(2, 3)` collides around `x = 14`.  Vertex `3` is a
source vertex of face 1 (the lower side of the first pair) and of face 2
(the upper side of the second pair), so it receives both a finite lower and
a finite upper bound. -/

/-- Edge table of the concrete scenario: two edges per face, faces 0-3. -/
def exEdges : List Edge :=
  [⟨0, 1, 0⟩, ⟨1, 0, 0⟩, ⟨2, 3, 1⟩, ⟨3, 2, 1⟩,
   ⟨3, 4, 2⟩, ⟨4, 3, 2⟩, ⟨5, 6, 3⟩, ⟨6, 5, 3⟩]

/-- Current (post-update) positions of the scenario. -/
def exPosCur : ℕ → Axis → ℚ := fun v a =>
  match a with
  | Axis.x =>
    match v with
    | 0 => 18 | 1 => 20 | 2 => 60 | 3 => 4 | 4 => 5 | 5 => 4 | 6 => 30 | _ => 0
  | _ => 0

/-- Snapshot (pre-update) positions of the scenario. -/
def exPosPrev : ℕ → Axis → ℚ := fun v a =>
  match a with
  | Axis.x =>
    match v with
    | 0 => 18 | 1 => 20 | 2 => 60 | 3 => 22 | 4 => 23 | 5 => 24 | 6 => 30 | _ => 0
  | _ => 0

/-- The scenario sheet (current positions). -/
def exSheet : Sheet := ⟨exEdges, exPosCur⟩

/-- The intersecting edge pairs reported by the detector in the scenario:
edge 0 (face 0) with edge 2 (face 1), and edge 4 (face 2) with edge 6
(face 3). -/
def exPairs : List (ℕ × ℕ) := [(0, 2), (4, 6)]

/-! ## Quasistatic solver (`tyssue/solvers/quasistatic.py`) -/

/-- The epithelium state as seen by `QSSolver`: the active-vertex index,
the coordinate columns and the position table. -/
structure Eptm where
  activeVerts : List ℕ
  coords : List Axis
  pos : ℕ → Axis → ℚ

/-- `eptm.vert_df.loc[eptm.active_verts, eptm.coords].values.flatten()` —
the flattened (row-major) active-vertex coordinate vector. -/
def readActivePos (e : Eptm) : List ℚ :=
  e.activeVerts.flatMap (fun v => e.coords.map (fun a => e.pos v a))

/-- The `TopologyChangeError` raised when a trial vector's implied vertex
count no longer matches the active-vertex count. -/
inductive TopologyChange where
  | changed
deriving DecidableEq, Repr

/-- `QSSolver._opt_energy`: with topology-reactive wrapping enabled
(`rearange`), a mismatch between the trial vector's implied vertex count
(`pos.size // ndims`) and the current active-vertex count raises
`TopologyChangeError`; otherwise the composed `set_pos` runs and the
model's energy is returned.  `setP` abstracts the composed position update
and `energy` abstracts `model.compute_energy`. -/
def optEnergy (rearange : Bool) (setP : List ℚ → Eptm → Eptm) (energy : Eptm → ℚ)
    (pos : List ℚ) (e : Eptm) : Except TopologyChange ℚ :=
  if rearange = true ∧ pos.length / e.coords.length ≠ e.activeVerts.length then
    Except.error TopologyChange.changed
  else
    Except.ok (energy (setP pos e))

/-- `QSSolver._opt_grad`: same mismatch check, then the model gradient
restricted to the active vertices and flattened. -/
def optGrad (rearange : Bool) (gradient : Eptm → ℕ → Axis → ℚ)
    (pos : List ℚ) (e : Eptm) : Except TopologyChange (List ℚ) :=
  if rearange = true ∧ pos.length / e.coords.length ≠ e.activeVerts.length then
    Except.error TopologyChange.changed
  else
    Except.ok (e.activeVerts.flatMap (fun v => e.coords.map (gradient e v)))

/-- `QSSolver._minimize`: the `while True` restart loop.  `runOpt` abstracts
one full `scipy.optimize.minimize` run: it receives the initial vector
(read from the current mesh) and the mesh, and either completes with a
result or surfaces the `TopologyChangeError` raised by `_opt_energy` /
`_opt_grad` mid-run (any other exception would propagate and is outside
this model).  The loop re-reads the active-vertex coordinate vector and
restarts after every caught topology change; `fuel` bounds the number of
restarts (`none` models a loop that has not completed within `fuel` runs). -/
def minimizeLoop {ρ : Type} (runOpt : List ℚ → Eptm → Eptm × Except TopologyChange ρ) :
    ℕ → Eptm → Option (Except TopologyChange ρ)
  | 0, _ => none
  | fuel + 1, e =>
    match runOpt (readActivePos e) e with
    | (_, Except.ok res) => some (Except.ok res)
    | (e', Except.error _) => minimizeLoop runOpt fuel e'

/-! ## Position-update composition (`QSSolver.__init__`)

The wrappers `auto_t1` and `auto_t3` live in `tyssue.topology`, which is not
part of the sources under study; they are modelled from the spec.  The
composition itself (`self.set_pos = ...` chain) is from
`QSSolver.__init__`: collisions are wrapped first (innermost), then T1,
then T3, so at call time the wrapped update runs first, then the collision
correction, then T1, then T3. -/

/-- The observable steps of one composed position update. -/
inductive UpdateStep where
  | writePositions
  | geomUpdate
  | collisionCorrection
  | t1Transition
  | t3Transition
deriving DecidableEq, Repr

/-- `QSSolver._set_pos`: write the trial positions, then
`geom.update_all`. -/
def setPosTrace : List UpdateStep := [UpdateStep.writePositions, UpdateStep.geomUpdate]

/-- The `solve_collisions` decorator, as a trace transformer: run the
wrapped update, correct collisions if any intersections were detected, then
refresh the geometry. -/
def solveCollisionsTrace (inner : List UpdateStep) (hasIntersections : Bool) : List UpdateStep :=
  inner ++ (if hasIntersections then [UpdateStep.collisionCorrection] else []) ++
    [UpdateStep.geomUpdate]

/-- Modelled from the spec: `auto_t1` (from `tyssue.topology`, absent from
the sources) resolves degenerate short edges via a type-1 transition after
the wrapped call, and the composed pipeline triggers a full geometry
refresh after its corrections. -/
def autoT1Trace (inner : List UpdateStep) : List UpdateStep :=
  inner ++ [UpdateStep.t1Transition, UpdateStep.geomUpdate]

/-- Modelled from the spec: `auto_t3` (from `tyssue.topology`, absent from
the sources) eliminates degenerate small faces via a type-3 transition
after the wrapped call, followed by a full geometry refresh. -/
def autoT3Trace (inner : List UpdateStep) : List UpdateStep :=
  inner ++ [UpdateStep.t3Transition, UpdateStep.geomUpdate]

/-- The composed `set_pos` built by `QSSolver.__init__`: collisions wrap
`_set_pos` first, then T1, then T3 (each independently optional). -/
def composedSetPosTrace (withCollisions withT1 withT3 hasIntersections : Bool) :
    List UpdateStep :=
  let p0 := setPosTrace
  let p1 := if withCollisions then solveCollisionsTrace p0 hasIntersections else p0
  let p2 := if withT1 then autoT1Trace p1 else p1
  if withT3 then autoT3Trace p2 else p2

/-- The `_set_pos` position write: reshape the flat trial vector to
`(num_p, ndims)` and assign it to the active vertices' coordinate columns.
Out-of-range reads keep the old value; the solver always supplies a vector
of matching length (a mismatched length outside the topology-change check
would be a pandas shape error, the fatal caller-bug case of the spec). -/
def writeActivePositions (active : List ℕ) (coords : List Axis) (vec : List ℚ)
    (p : ℕ → Axis → ℚ) : ℕ → Axis → ℚ :=
  fun v a =>
    if v ∈ active ∧ a ∈ coords then
      vec.getD (active.indexOf v * coords.length + coords.indexOf a) (p v a)
    else p v a

/-- `QSSolver._set_pos`: write the trial positions into the mesh, then run
`geom.update_all`.  Returns `()` (Python's implicit `None`). -/
def setPos (geomUpdate : Sheet → Sheet) (active : List ℕ) (coords : List Axis)
    (vec : List ℚ) (s : Sheet) : Sheet × Unit :=
  (geomUpdate { s with pos := writeActivePositions active coords vec s.pos }, ())

/-- The default separation margin
(`sheet.settings.get("shyness", 1e-10)` / the `shyness=1e-10` default). -/
def defaultShyness : ℚ := 1 / 10000000000

/-- Order between an optional lower bound (`none` = `-inf`) and an optional
upper bound (`none` = `+inf`). -/
def boundsLe : Option ℚ → Option ℚ → Prop
  | some lb, some ub => lb ≤ ub
  | _, _ => True

/-! Batteries marks the `Rat` field operations `@[irreducible]`, which blocks
`decide`-style evaluation of the embedding on concrete scenarios; restore
default reducibility for them. -/
attribute [local semireducible] Rat.add Rat.sub Rat.mul Rat.inv

/-! ## Helper lemmas -/

theorem foldl_min_le_init (xs : List ℚ) (init : ℚ) : xs.foldl min init ≤ init := by
  induction xs generalizing init with
  | nil => exact le_refl _
  | cons y ys ih => exact le_trans (ih (min init y)) (min_le_left _ _)

theorem foldl_min_le_mem (xs : List ℚ) (init x : ℚ) (hx : x ∈ xs) :
    xs.foldl min init ≤ x := by
  induction xs generalizing init with
  | nil => cases hx
  | cons y ys ih =>
    rcases List.mem_cons.mp hx with h | h
    · subst h
      exact le_trans (foldl_min_le_init ys (min init x)) (min_le_right _ _)
    · exact ih (min init y) h

theorem init_le_foldl_max (xs : List ℚ) (init : ℚ) : init ≤ xs.foldl max init := by
  induction xs generalizing init with
  | nil => exact le_refl _
  | cons y ys ih => exact le_trans (le_max_left _ _) (ih (max init y))

theorem mem_le_foldl_max (xs : List ℚ) (init x : ℚ) (hx : x ∈ xs) :
    x ≤ xs.foldl max init := by
  induction xs generalizing init with
  | nil => cases hx
  | cons y ys ih =>
    rcases List.mem_cons.mp hx with h | h
    · subst h
      exact le_trans (le_max_right _ _) (init_le_foldl_max ys (max init x))
    · exact ih (max init y) h

theorem listMin_le_of_mem (l : List ℚ) (x : ℚ) (hx : x ∈ l) : listMin l ≤ x := by
  cases l with
  | nil => cases hx
  | cons q qs =>
    rcases List.mem_cons.mp hx with h | h
    · subst h; exact foldl_min_le_init qs x
    · exact foldl_min_le_mem qs q x h

theorem le_listMax_of_mem (l : List ℚ) (x : ℚ) (hx : x ∈ l) : x ≤ listMax l := by
  cases l with
  | nil => cases hx
  | cons q qs =>
    rcases List.mem_cons.mp hx with h | h
    · subst h; exact init_le_foldl_max qs x
    · exact mem_le_foldl_max qs q x h

/-- A vertex of a face lies inside the face's bounding box (lower side). -/
theorem bbox_l_le (tbl : ℕ → Axis → ℚ) (srces : List ℕ) (v : ℕ) (hv : v ∈ srces)
    (a : Axis) : (faceBBox tbl srces).l a ≤ tbl v a :=
  listMin_le_of_mem _ _ (List.mem_map_of_mem (fun u => tbl u a) hv)

/-- A vertex of a face lies inside the face's bounding box (upper side). -/
theorem le_bbox_h (tbl : ℕ → Axis → ℚ) (srces : List ℕ) (v : ℕ) (hv : v ∈ srces)
    (a : Axis) : tbl v a ≤ (faceBBox tbl srces).h a :=
  le_listMax_of_mem _ _ (List.mem_map_of_mem (fun u => tbl u a) hv)

/-- When the signed gap between two box edges changes sign between the
snapshot and the current positions, the two linearly interpolated edge
trajectories cross, the interpolation denominator is nonzero, and the
crossing coordinate is the quotient computed by `_collision_plane`. -/
theorem interpolated_crossing (h0p h0c l1p l1c : ℚ)
    (hsc : (l1c - h0c) * (l1p - h0p) < 0) :
    (l1c - l1p) - (h0c - h0p) ≠ 0 ∧
    h0p + ((h0p - l1p) / ((l1c - l1p) - (h0c - h0p))) * (h0c - h0p)
      = (h0p * (l1c - l1p) - l1p * (h0c - h0p)) / ((l1c - l1p) - (h0c - h0p)) ∧
    l1p + ((h0p - l1p) / ((l1c - l1p) - (h0c - h0p))) * (l1c - l1p)
      = (h0p * (l1c - l1p) - l1p * (h0c - h0p)) / ((l1c - l1p) - (h0c - h0p)) := by
  have hd : (l1c - l1p) - (h0c - h0p) ≠ 0 := by
    rcases mul_neg_iff.mp hsc with ⟨h1, h2⟩ | ⟨h1, h2⟩
    · intro h0
      nlinarith
    · intro h0
      nlinarith
  refine ⟨hd, ?_, ?_⟩
  · field_simp
    ring
  · field_simp
    ring

/-! ## Claim theorems -/

/-- C1: with topology-reactive wrapping enabled, `_opt_energy` / `_opt_grad`
raise the topology-change condition exactly when the trial vector's implied
vertex count differs from the current active-vertex count; `_minimize`
catches it, restarts from the re-read active-vertex vector of the updated
mesh, returns the first uninterrupted run's result, and never propagates
the condition to the caller. -/
theorem claim1_topology_restart {ρ : Type}
    (runOpt : List ℚ → Eptm → Eptm × Except TopologyChange ρ)
    (setP : List ℚ → Eptm → Eptm) (energy : Eptm → ℚ)
    (gradient : Eptm → ℕ → Axis → ℚ)
    (pos : List ℚ) (e e' : Eptm) (fuel : ℕ) (res : ρ) (err : TopologyChange) :
    (optEnergy true setP energy pos e = Except.error TopologyChange.changed ↔
        pos.length / e.coords.length ≠ e.activeVerts.length) ∧
    (optGrad true gradient pos e = Except.error TopologyChange.changed ↔
        pos.length / e.coords.length ≠ e.activeVerts.length) ∧
    (runOpt (readActivePos e) e = (e', Except.error err) →
        minimizeLoop runOpt (fuel + 1) e = minimizeLoop runOpt fuel e') ∧
    (runOpt (readActivePos e) e = (e', Except.ok res) →
        minimizeLoop runOpt (fuel + 1) e = some (Except.ok res)) ∧
    minimizeLoop runOpt fuel e ≠ some (Except.error err) := by
  refine ⟨?_, ?_, ?_, ?_, ?_⟩
  · unfold optEnergy
    constructor
    · intro h
      by_contra hne
      rw [if_neg (fun hc => hc.2 hne)] at h
      cases h
    · intro h
      rw [if_pos ⟨rfl, h⟩]
  · unfold optGrad
    constructor
    · intro h
      by_contra hne
      rw [if_neg (fun hc => hc.2 hne)] at h
      cases h
    · intro h
      rw [if_pos ⟨rfl, h⟩]
  · intro h
    show (match runOpt (readActivePos e) e with
      | (_, Except.ok r) => some (Except.ok r)
      | (e2, Except.error _) => minimizeLoop runOpt fuel e2) = minimizeLoop runOpt fuel e'
    rw [h]
  · intro h
    show (match runOpt (readActivePos e) e with
      | (_, Except.ok r) => some (Except.ok r)
      | (e2, Except.error _) => minimizeLoop runOpt fuel e2) = some (Except.ok res)
    rw [h]
  · induction fuel generalizing e with
    | zero =>
      intro h
      cases h
    | succ n ih =>
      intro h
      unfold minimizeLoop at h
      rcases hro : runOpt (readActivePos e) e with ⟨e2, out⟩
      rw [hro] at h
      cases out with
      | ok r => cases h
      | error er2 => exact ih e2 h

/-- Concrete instantiation of `claim1_topology_restart`: a mismatched trial
vector raises, a failing run restarts the loop, a completing run returns
its result, and the loop never surfaces the error. -/
theorem claim1_topology_restart_witness :
    (optEnergy true (fun _ e => e) (fun _ => 0) [] ⟨[0], [Axis.x], fun _ _ => 0⟩
        = Except.error TopologyChange.changed) ∧
    (minimizeLoop
        (fun _ e => (e, (Except.error TopologyChange.changed : Except TopologyChange ℚ))) 1
        ⟨[0], [Axis.x], fun _ _ => 0⟩
      = minimizeLoop
        (fun _ e => (e, (Except.error TopologyChange.changed : Except TopologyChange ℚ))) 0
        ⟨[0], [Axis.x], fun _ _ => 0⟩) ∧
    (minimizeLoop (fun _ e => (e, Except.ok (0 : ℚ))) 1 ⟨[0], [Axis.x], fun _ _ => 0⟩
      = some (Except.ok 0)) ∧
    minimizeLoop (fun _ e => (e, Except.ok (0 : ℚ))) 3 ⟨[0], [Axis.x], fun _ _ => 0⟩
      ≠ some (Except.error TopologyChange.changed) := by
  refine ⟨?_, ?_, ?_, ?_⟩
  · exact (claim1_topology_restart (ρ := ℚ) (fun _ e => (e, Except.ok 0)) (fun _ e => e)
      (fun _ => 0) (fun _ _ _ => 0) [] ⟨[0], [Axis.x], fun _ _ => 0⟩
      ⟨[0], [Axis.x], fun _ _ => 0⟩ 0 0 TopologyChange.changed).1.mpr (by decide)
  · exact (claim1_topology_restart (fun _ e => (e, (Except.error TopologyChange.changed : Except TopologyChange ℚ)))
      (fun _ e => e) (fun _ => 0) (fun _ _ _ => 0) [] ⟨[0], [Axis.x], fun _ _ => 0⟩
      ⟨[0], [Axis.x], fun _ _ => 0⟩ 0 (0 : ℚ) TopologyChange.changed).2.2.1 rfl
  · exact (claim1_topology_restart (fun _ e => (e, Except.ok (0 : ℚ)))
      (fun _ e => e) (fun _ => 0) (fun _ _ _ => 0) [] ⟨[0], [Axis.x], fun _ _ => 0⟩
      ⟨[0], [Axis.x], fun _ _ => 0⟩ 0 0 TopologyChange.changed).2.2.2.1 rfl
  · exact (claim1_topology_restart (fun _ e => (e, Except.ok (0 : ℚ)))
      (fun _ e => e) (fun _ => 0) (fun _ _ _ => 0) [] ⟨[0], [Axis.x], fun _ _ => 0⟩
      ⟨[0], [Axis.x], fun _ _ => 0⟩ 3 0 TopologyChange.changed).2.2.2.2

/-- C2: with all three wrappers enabled and intersections present, one call
of the composed position update runs the raw write, then the collision
correction, then the type-1 transition, then the type-3 transition, each
followed by a geometry refresh — so the corrections happen in the fixed
order collision → T1 → T3 and the pipeline ends with a full refresh. -/
theorem claim2_wrapper_order :
    composedSetPosTrace true true true true
      = [UpdateStep.writePositions, UpdateStep.geomUpdate,
         UpdateStep.collisionCorrection, UpdateStep.geomUpdate,
         UpdateStep.t1Transition, UpdateStep.geomUpdate,
         UpdateStep.t3Transition, UpdateStep.geomUpdate] := by
  rfl

/-- C9: the collision-correction wrapper hands back exactly the wrapped
function's return value, whatever the detector reports and whatever
corrections are applied. -/
theorem claim9_wrapper_return_value {ρ : Type} (geomUpdate : Sheet → Sheet)
    (detector : Sheet → List (ℕ × ℕ)) (shyness : ℚ)
    (f : Sheet → Sheet × ρ) (s : Sheet) :
    (withCollisionCorrection geomUpdate detector shyness f s).2 = (f s).2 := by
  rfl

theorem planeFound_eq_false_of_all_none (s : Sheet) (buf : ℕ → Axis → ℚ)
    (eps : List (ℕ × ℕ)) (shy : ℚ)
    (h : ∀ pr ∈ getIntersectingFaces s eps, (collisionPlane s buf pr.1 pr.2 shy).isNone) :
    planeFoundOf s buf eps shy = false := by
  have hany : (planesOf s buf (getIntersectingFaces s eps) shy).any Option.isSome = false := by
    rw [List.any_eq_false]
    intro pl hpl
    unfold planesOf at hpl
    rcases List.mem_map.mp hpl with ⟨pr, hpr, hplval⟩
    have hn := h pr hpr
    rw [← hplval]
    rcases hcp : collisionPlane s buf pr.1 pr.2 shy with _ | v
    · simp
    · rw [hcp] at hn
      simp [Option.isNone] at hn
  show (if (collidingVertsOf s (getIntersectingFaces s eps)).isEmpty then false
      else (planesOf s buf (getIntersectingFaces s eps) shy).any Option.isSome) = false
  rw [hany]
  split <;> rfl

/-- C7: when no colliding face pair yields a separating plane (every pair is
skipped via the warning branch, or there are no pairs at all),
`solve_collisions` leaves every vertex position unchanged and returns 0,
without raising. -/
theorem claim7_no_plane_noop (s : Sheet) (buf : ℕ → Axis → ℚ)
    (eps : List (ℕ × ℕ)) (shy : ℚ)
    (h : ∀ pr ∈ getIntersectingFaces s eps, (collisionPlane s buf pr.1 pr.2 shy).isNone) :
    solveCollisions s buf eps shy = (s, some 0) := by
  unfold solveCollisions
  rw [planeFound_eq_false_of_all_none s buf eps shy h]
  rfl

/-- Concrete instantiation of `claim7_no_plane_noop`: with an unchanged
position snapshot no sign change exists, every pair is skipped, and the
call is a no-op returning 0. -/
theorem claim7_no_plane_noop_witness :
    solveCollisions exSheet exPosCur exPairs defaultShyness = (exSheet, some 0) :=
  claim7_no_plane_noop exSheet exPosCur exPairs defaultShyness (by decide)

/-- C8: when the intersection detector reports no intersecting edge pairs
after the wrapped `_set_pos`, the collision-wrapped position update
produces exactly the state and return value of the unwrapped `_set_pos`,
provided `geom.update_all` is idempotent (the wrapper's extra refresh is
then redundant). -/
theorem claim8_wrapper_transparent (geomUpdate : Sheet → Sheet)
    (detector : Sheet → List (ℕ × ℕ)) (shyness : ℚ)
    (active : List ℕ) (coords : List Axis) (vec : List ℚ) (s : Sheet)
    (hidem : ∀ t, geomUpdate (geomUpdate t) = geomUpdate t)
    (hdet : detector (setPos geomUpdate active coords vec s).1 = []) :
    withCollisionCorrection geomUpdate detector shyness
        (setPos geomUpdate active coords vec) s
      = setPos geomUpdate active coords vec s := by
  simp only [withCollisionCorrection]
  rw [hdet]
  simp only [List.length_nil, ne_eq, not_true_eq_false, if_false, ite_false]
  unfold setPos
  rw [hidem]

/-- Concrete instantiation of `claim8_wrapper_transparent` with the identity
geometry update and an empty detector on the scenario sheet. -/
theorem claim8_wrapper_transparent_witness :
    withCollisionCorrection id (fun _ => []) defaultShyness
        (setPos id [0] [Axis.x] [7]) exSheet
      = setPos id [0] [Axis.x] [7] exSheet :=
  claim8_wrapper_transparent id (fun _ => []) defaultShyness [0] [Axis.x] [7] exSheet
    (fun _ => rfl) rfl

theorem unorderedEqv_refl (p : ℕ × ℕ) : unorderedEqv p p = true := by
  simp [unorderedEqv]

theorem dedupUnordered_step_mono (l : List (ℕ × ℕ)) (acc : List (ℕ × ℕ)) (x : ℕ × ℕ)
    (hx : x ∈ acc) :
    x ∈ l.foldl
      (fun acc p => if acc.any (fun q => unorderedEqv q p) then acc else acc ++ [p]) acc := by
  induction l generalizing acc with
  | nil => exact hx
  | cons p rest ih =>
    simp only [List.foldl_cons]
    split
    · exact ih acc hx
    · exact ih (acc ++ [p]) (List.mem_append_left _ hx)

theorem dedupUnordered_fold_subset (l : List (ℕ × ℕ)) (acc : List (ℕ × ℕ)) (x : ℕ × ℕ)
    (hx : x ∈ l.foldl
      (fun acc p => if acc.any (fun q => unorderedEqv q p) then acc else acc ++ [p]) acc) :
    x ∈ acc ∨ x ∈ l := by
  induction l generalizing acc with
  | nil => exact Or.inl hx
  | cons p rest ih =>
    simp only [List.foldl_cons] at hx
    rcases hx2 : (acc.any fun q => unorderedEqv q p) with _ | _
    · rw [hx2] at hx
      simp only [Bool.false_eq_true, if_false] at hx
      rcases ih (acc ++ [p]) hx with h | h
      · rcases List.mem_append.mp h with h' | h'
        · exact Or.inl h'
        · rcases List.mem_singleton.mp h' with rfl
          exact Or.inr (List.mem_cons_self _ _)
      · exact Or.inr (List.mem_cons_of_mem _ h)
    · rw [hx2] at hx
      simp only [if_true] at hx
      rcases ih acc hx with h | h
      · exact Or.inl h
      · exact Or.inr (List.mem_cons_of_mem _ h)

theorem dedupUnordered_fold_pairwise (l : List (ℕ × ℕ)) (acc : List (ℕ × ℕ))
    (hacc : acc.Pairwise (fun p q => unorderedEqv p q = false)) :
    (l.foldl
      (fun acc p => if acc.any (fun q => unorderedEqv q p) then acc else acc ++ [p])
      acc).Pairwise (fun p q => unorderedEqv p q = false) := by
  induction l generalizing acc with
  | nil => exact hacc
  | cons p rest ih =>
    simp only [List.foldl_cons]
    split
    · exact ih acc hacc
    · refine ih (acc ++ [p]) ?_
      rw [List.pairwise_append]
      refine ⟨hacc, List.pairwise_singleton _ _, ?_⟩
      intro a ha b hb
      rcases List.mem_singleton.mp hb with rfl
      rename_i hcond
      exact Bool.eq_false_iff.mpr (List.any_eq_false.mp (Bool.eq_false_iff.mpr hcond) a ha)

theorem dedupUnordered_fold_complete (l : List (ℕ × ℕ)) (acc : List (ℕ × ℕ)) (q : ℕ × ℕ)
    (hq : q ∈ l) :
    ∃ p ∈ l.foldl
      (fun acc p => if acc.any (fun r => unorderedEqv r p) then acc else acc ++ [p]) acc,
      unorderedEqv p q = true := by
  induction l generalizing acc with
  | nil => cases hq
  | cons r rest ih =>
    simp only [List.foldl_cons]
    rcases List.mem_cons.mp hq with rfl | hq'
    · split
      · rename_i hany
        rcases List.any_eq_true.mp hany with ⟨p, hp, hpq⟩
        exact ⟨p, dedupUnordered_step_mono rest acc p hp, hpq⟩
      · exact ⟨q, dedupUnordered_step_mono rest (acc ++ [q]) q
          (List.mem_append_right _ (List.mem_singleton_self _)), unorderedEqv_refl q⟩
    · split
      · exact ih acc hq'
      · exact ih (acc ++ [r]) hq'

/-- C6: the colliding face pairs are the edge pairs mapped to their owning
faces, deduplicated with unordered-pair (set) semantics, with every pair
that does not resolve to two distinct faces discarded; consequently the
result has no self-pairs, no duplicates up to order, every entry comes from
the mapped list, and every mapped pair of two distinct faces is represented
up to order. -/
theorem claim6_face_pairs (s : Sheet) (eps : List (ℕ × ℕ)) :
    (∀ pr ∈ getIntersectingFaces s eps, pr.1 ≠ pr.2) ∧
    (getIntersectingFaces s eps).Pairwise (fun p q => unorderedEqv p q = false) ∧
    (∀ pr ∈ getIntersectingFaces s eps,
        pr ∈ eps.map (fun ep => (faceOf s ep.1, faceOf s ep.2))) ∧
    (∀ ep ∈ eps, faceOf s ep.1 ≠ faceOf s ep.2 →
        ∃ pr ∈ getIntersectingFaces s eps,
          unorderedEqv pr (faceOf s ep.1, faceOf s ep.2) = true) := by
  refine ⟨?_, ?_, ?_, ?_⟩
  · intro pr hpr
    have := (List.mem_filter.mp hpr).2
    simpa using this
  · exact (List.pairwise_filter).mpr
      ((dedupUnordered_fold_pairwise _ [] List.Pairwise.nil).imp (by tauto))
  · intro pr hpr
    have hmem := (List.mem_filter.mp hpr).1
    exact (dedupUnordered_fold_subset _ [] pr hmem).resolve_left (by simp)
  · intro ep hep hne
    have hq : (faceOf s ep.1, faceOf s ep.2) ∈
        eps.map (fun ep => (faceOf s ep.1, faceOf s ep.2)) :=
      List.mem_map_of_mem _ hep
    rcases dedupUnordered_fold_complete _ [] _ hq with ⟨pr, hpr, heqv⟩
    refine ⟨pr, List.mem_filter.mpr ⟨hpr, ?_⟩, heqv⟩
    simp only [unorderedEqv, Bool.or_eq_true, Bool.and_eq_true, beq_iff_eq] at heqv
    rcases heqv with ⟨h1, h2⟩ | ⟨h1, h2⟩
    · simp only [decide_eq_true_eq]
      rw [h1, h2]
      exact hne
    · simp only [decide_eq_true_eq]
      rw [h1, h2]
      exact fun h => hne h.symm

/-- Concrete instantiation of `claim6_face_pairs` on the scenario: the pair
of faces 0 and 1 is distinct and the mapped pair of the first edge pair is
represented in the result. -/
theorem claim6_face_pairs_witness :
    (0, 1).1 ≠ (0, 1).2 ∧
    ∃ pr ∈ getIntersectingFaces exSheet exPairs,
      unorderedEqv pr (faceOf exSheet 0, faceOf exSheet 2) = true :=
  ⟨(claim6_face_pairs exSheet exPairs).1 (0, 1) (by decide),
   (claim6_face_pairs exSheet exPairs).2.2.2 (0, 2) (by decide) (by decide)⟩

theorem collisionPlane_none_of_empty (s : Sheet) (buf : ℕ → Axis → ℚ) (f0 f1 : ℕ)
    (shy : ℚ) (h0 : faceSrces s f0 = []) (h1 : faceSrces s f1 = []) :
    collisionPlane s buf f0 f1 shy = none := by
  unfold collisionPlane
  rw [h0, h1]
  simp [scL1H0, scL0H1, faceBBox, listMin, listMax, allAxes]

theorem exists_edge_of_faceSrces_ne_nil (s : Sheet) (f : ℕ)
    (h : faceSrces s f ≠ []) : ∃ e ∈ s.edges, e.face = f := by
  unfold faceSrces at h
  rcases List.exists_mem_of_ne_nil _ h with ⟨v, hv⟩
  rcases List.mem_map.mp hv with ⟨e, he, _⟩
  have := List.mem_filter.mp he
  exact ⟨e, this.1, by simpa using this.2⟩

theorem collidingVerts_ne_nil (s : Sheet) (facePairs : List (ℕ × ℕ)) (pr : ℕ × ℕ)
    (hpr : pr ∈ facePairs) (e : Edge) (he : e ∈ s.edges)
    (hface : e.face = pr.1 ∨ e.face = pr.2) :
    collidingVertsOf s facePairs ≠ [] := by
  unfold collidingVertsOf
  intro hnil
  rw [List.dedup_eq_nil, List.map_eq_nil_iff, List.filter_eq_nil_iff] at hnil
  refine hnil e he ?_
  rw [List.any_eq_true]
  refine ⟨pr, hpr, ?_⟩
  rcases hface with h | h
  · simp [h]
  · simp [h]

theorem planeFound_iff_any_isSome (s : Sheet) (buf : ℕ → Axis → ℚ)
    (eps : List (ℕ × ℕ)) (shy : ℚ) :
    planeFoundOf s buf eps shy = true ↔
      (planesOf s buf (getIntersectingFaces s eps) shy).any Option.isSome = true := by
  constructor
  · intro h
    simp only [planeFoundOf] at h
    rcases hvE : (collidingVertsOf s (getIntersectingFaces s eps)).isEmpty with _ | _
    · rw [hvE] at h
      simpa using h
    · rw [hvE] at h
      simp at h
  · intro h
    rcases List.any_eq_true.mp h with ⟨pl, hpl, hsome⟩
    unfold planesOf at hpl
    rcases List.mem_map.mp hpl with ⟨pr, hpr, hplval⟩
    have hne : faceSrces s pr.1 ≠ [] ∨ faceSrces s pr.2 ≠ [] := by
      by_contra hc
      push_neg at hc
      have := collisionPlane_none_of_empty s buf pr.1 pr.2 shy hc.1 hc.2
      rw [this] at hplval
      rw [← hplval] at hsome
      cases hsome
    have hverts : collidingVertsOf s (getIntersectingFaces s eps) ≠ [] := by
      rcases hne with hne | hne
      · rcases exists_edge_of_faceSrces_ne_nil s pr.1 hne with ⟨e, he, hef⟩
        exact collidingVerts_ne_nil s _ pr hpr e he (Or.inl hef)
      · rcases exists_edge_of_faceSrces_ne_nil s pr.2 hne with ⟨e, he, hef⟩
        exact collidingVerts_ne_nil s _ pr hpr e he (Or.inr hef)
    have hvE : (collidingVertsOf s (getIntersectingFaces s eps)).isEmpty = false := by
      rcases hl : collidingVertsOf s (getIntersectingFaces s eps) with _ | ⟨a, l⟩
      · exact absurd hl hverts
      · rfl
    simp only [planeFoundOf]
    rw [hvE]
    simpa using h

/-- C10: `solve_collisions` returns the integer 0 exactly when no collision
plane was found (every pair's `_collision_plane` returned `None`), and
returns Python's `None` whenever at least one plane was found and
corrections were applied — so the caller never receives a count of the
corrections made. -/
theorem claim10_return_value (s : Sheet) (buf : ℕ → Axis → ℚ) (eps : List (ℕ × ℕ))
    (shy : ℚ) :
    ((solveCollisions s buf eps shy).2 = some 0 ↔
      (planesOf s buf (getIntersectingFaces s eps) shy).all Option.isNone = true) ∧
    ((planesOf s buf (getIntersectingFaces s eps) shy).any Option.isSome = true →
      (solveCollisions s buf eps shy).2 = none) := by
  have hAllNot : (planesOf s buf (getIntersectingFaces s eps) shy).all Option.isNone = true ↔
      ¬ (planesOf s buf (getIntersectingFaces s eps) shy).any Option.isSome = true := by
    rw [List.all_eq_true, List.any_eq_true]
    constructor
    · rintro hall ⟨pl, hpl, hsome⟩
      have := hall pl hpl
      rcases pl with _ | v
      · cases hsome
      · cases this
    · intro hnone pl hpl
      rcases hopt : pl with _ | v
      · rfl
      · exact absurd ⟨pl, hpl, by rw [hopt]; rfl⟩ hnone
  constructor
  · constructor
    · intro h
      rw [hAllNot]
      intro hany
      have hfound := (planeFound_iff_any_isSome s buf eps shy).mpr hany
      unfold solveCollisions at h
      rw [hfound] at h
      simp at h
    · intro hall
      have hnotany := hAllNot.mp hall
      have hfound : planeFoundOf s buf eps shy = false := by
        rcases hf : planeFoundOf s buf eps shy with _ | _
        · rfl
        · exact absurd ((planeFound_iff_any_isSome s buf eps shy).mp hf) hnotany
      unfold solveCollisions
      rw [hfound]
      rfl
  · intro hany
    have hfound := (planeFound_iff_any_isSome s buf eps shy).mpr hany
    unfold solveCollisions
    rw [hfound]
    rfl

/-- Concrete instantiation of `claim10_return_value`: the scenario run finds
planes and returns `None`; the no-movement run returns 0 with all pairs
skipped. -/
theorem claim10_return_value_witness :
    ((solveCollisions exSheet exPosPrev exPairs defaultShyness).2 = none) ∧
    ((solveCollisions exSheet exPosCur exPairs defaultShyness).2 = some 0) :=
  ⟨(claim10_return_value exSheet exPosPrev exPairs defaultShyness).2 (by decide),
   (claim10_return_value exSheet exPosCur exPairs defaultShyness).1.mpr (by decide)⟩

theorem mem_allAxes (a : Axis) : a ∈ allAxes := by
  cases a <;> simp [allAxes]

/-- C3: when face 0 was strictly left of face 1 before the update and face
1's lower box edge now lies left of face 0's upper box edge on some axis,
`_collision_plane` takes the first branch: for every flagged axis the two
interpolated box-edge trajectories cross at a common coordinate `p`, face
1's source vertices get the lower bound `p + shyness/2` and face 0's source
vertices get the upper bound `p - shyness/2`; and symmetrically in the
mirror case (which runs when no axis flags the first pattern). -/
theorem claim3_collision_plane (s : Sheet) (buf : ℕ → Axis → ℚ) (f0 f1 : ℕ)
    (shy : ℚ) (a : Axis) :
    ((faceBBox buf (faceSrces s f0)).h a < (faceBBox buf (faceSrces s f1)).l a →
     (faceBBox s.pos (faceSrces s f1)).l a < (faceBBox s.pos (faceSrces s f0)).h a →
      ∃ pl, collisionPlane s buf f0 f1 shy = some pl ∧
        pl.lowerVerts = faceSrces s f1 ∧ pl.upperVerts = faceSrces s f0 ∧
        ∀ b, scL1H0 (faceBBox s.pos (faceSrces s f0)) (faceBBox s.pos (faceSrces s f1))
            (faceBBox buf (faceSrces s f0)) (faceBBox buf (faceSrces s f1)) b = true →
          ∃ t p,
            (faceBBox buf (faceSrces s f0)).h b
              + t * ((faceBBox s.pos (faceSrces s f0)).h b
                      - (faceBBox buf (faceSrces s f0)).h b) = p ∧
            (faceBBox buf (faceSrces s f1)).l b
              + t * ((faceBBox s.pos (faceSrces s f1)).l b
                      - (faceBBox buf (faceSrces s f1)).l b) = p ∧
            pl.lowerVal b = some (p + shy / 2) ∧
            pl.upperVal b = some (p - shy / 2)) ∧
    ((∀ b, scL1H0 (faceBBox s.pos (faceSrces s f0)) (faceBBox s.pos (faceSrces s f1))
            (faceBBox buf (faceSrces s f0)) (faceBBox buf (faceSrces s f1)) b = false) →
     (faceBBox buf (faceSrces s f1)).h a < (faceBBox buf (faceSrces s f0)).l a →
     (faceBBox s.pos (faceSrces s f0)).l a < (faceBBox s.pos (faceSrces s f1)).h a →
      ∃ pl, collisionPlane s buf f0 f1 shy = some pl ∧
        pl.lowerVerts = faceSrces s f0 ∧ pl.upperVerts = faceSrces s f1 ∧
        ∀ b, scL0H1 (faceBBox s.pos (faceSrces s f0)) (faceBBox s.pos (faceSrces s f1))
            (faceBBox buf (faceSrces s f0)) (faceBBox buf (faceSrces s f1)) b = true →
          ∃ t p,
            (faceBBox buf (faceSrces s f1)).h b
              + t * ((faceBBox s.pos (faceSrces s f1)).h b
                      - (faceBBox buf (faceSrces s f1)).h b) = p ∧
            (faceBBox buf (faceSrces s f0)).l b
              + t * ((faceBBox s.pos (faceSrces s f0)).l b
                      - (faceBBox buf (faceSrces s f0)).l b) = p ∧
            pl.lowerVal b = some (p + shy / 2) ∧
            pl.upperVal b = some (p - shy / 2)) := by
  constructor
  · intro hprev hcur
    have hsc : scL1H0 (faceBBox s.pos (faceSrces s f0)) (faceBBox s.pos (faceSrces s f1))
        (faceBBox buf (faceSrces s f0)) (faceBBox buf (faceSrces s f1)) a = true := by
      apply decide_eq_true
      have h1 : (faceBBox s.pos (faceSrces s f1)).l a
          - (faceBBox s.pos (faceSrces s f0)).h a < 0 := by linarith
      have h2 : 0 < (faceBBox buf (faceSrces s f1)).l a
          - (faceBBox buf (faceSrces s f0)).h a := by linarith
      exact mul_neg_of_neg_of_pos h1 h2
    have hany : allAxes.any (scL1H0 (faceBBox s.pos (faceSrces s f0))
        (faceBBox s.pos (faceSrces s f1)) (faceBBox buf (faceSrces s f0))
        (faceBBox buf (faceSrces s f1))) = true :=
      List.any_eq_true.mpr ⟨a, mem_allAxes a, hsc⟩
    simp only [collisionPlane]
    split
    · refine ⟨_, rfl, rfl, rfl, ?_⟩
      intro b hb
      have hb' : ((faceBBox s.pos (faceSrces s f1)).l b
            - (faceBBox s.pos (faceSrces s f0)).h b)
          * ((faceBBox buf (faceSrces s f1)).l b
            - (faceBBox buf (faceSrces s f0)).h b) < 0 := of_decide_eq_true hb
      obtain ⟨hd, he1, he2⟩ := interpolated_crossing
        ((faceBBox buf (faceSrces s f0)).h b) ((faceBBox s.pos (faceSrces s f0)).h b)
        ((faceBBox buf (faceSrces s f1)).l b) ((faceBBox s.pos (faceSrces s f1)).l b) hb'
      refine ⟨_, _, he1, he2, ?_, ?_⟩
      · show (if scL1H0 (faceBBox s.pos (faceSrces s f0)) (faceBBox s.pos (faceSrces s f1))
            (faceBBox buf (faceSrces s f0)) (faceBBox buf (faceSrces s f1)) b = true
            then some (((faceBBox buf (faceSrces s f0)).h b
                * ((faceBBox s.pos (faceSrces s f1)).l b - (faceBBox buf (faceSrces s f1)).l b)
              - (faceBBox buf (faceSrces s f1)).l b
                * ((faceBBox s.pos (faceSrces s f0)).h b - (faceBBox buf (faceSrces s f0)).h b))
              / (((faceBBox s.pos (faceSrces s f1)).l b - (faceBBox buf (faceSrces s f1)).l b)
                - ((faceBBox s.pos (faceSrces s f0)).h b - (faceBBox buf (faceSrces s f0)).h b))
              + shy / 2) else none) = _
        rw [if_pos hb]
      · show (if scL1H0 (faceBBox s.pos (faceSrces s f0)) (faceBBox s.pos (faceSrces s f1))
            (faceBBox buf (faceSrces s f0)) (faceBBox buf (faceSrces s f1)) b = true
            then some (((faceBBox buf (faceSrces s f0)).h b
                * ((faceBBox s.pos (faceSrces s f1)).l b - (faceBBox buf (faceSrces s f1)).l b)
              - (faceBBox buf (faceSrces s f1)).l b
                * ((faceBBox s.pos (faceSrces s f0)).h b - (faceBBox buf (faceSrces s f0)).h b))
              / (((faceBBox s.pos (faceSrces s f1)).l b - (faceBBox buf (faceSrces s f1)).l b)
                - ((faceBBox s.pos (faceSrces s f0)).h b - (faceBBox buf (faceSrces s f0)).h b))
              - shy / 2) else none) = _
        rw [if_pos hb]
    · rename_i hfalse
      exact absurd hany hfalse
  · intro hno1 hprev hcur
    have hsc : scL0H1 (faceBBox s.pos (faceSrces s f0)) (faceBBox s.pos (faceSrces s f1))
        (faceBBox buf (faceSrces s f0)) (faceBBox buf (faceSrces s f1)) a = true := by
      apply decide_eq_true
      have h1 : (faceBBox s.pos (faceSrces s f0)).l a
          - (faceBBox s.pos (faceSrces s f1)).h a < 0 := by linarith
      have h2 : 0 < (faceBBox buf (faceSrces s f0)).l a
          - (faceBBox buf (faceSrces s f1)).h a := by linarith
      exact mul_neg_of_neg_of_pos h1 h2
    have hany2 : allAxes.any (scL0H1 (faceBBox s.pos (faceSrces s f0))
        (faceBBox s.pos (faceSrces s f1)) (faceBBox buf (faceSrces s f0))
        (faceBBox buf (faceSrces s f1))) = true :=
      List.any_eq_true.mpr ⟨a, mem_allAxes a, hsc⟩
    have hany1 : allAxes.any (scL1H0 (faceBBox s.pos (faceSrces s f0))
        (faceBBox s.pos (faceSrces s f1)) (faceBBox buf (faceSrces s f0))
        (faceBBox buf (faceSrces s f1))) = false :=
      List.any_eq_false.mpr (fun b _ => by rw [hno1 b]; exact fun h => Bool.noConfusion h)
    simp only [collisionPlane]
    rw [hany1, if_neg (fun h => Bool.noConfusion h), hany2, if_pos rfl]
    refine ⟨_, rfl, rfl, rfl, ?_⟩
    intro b hb
    have hb' : ((faceBBox s.pos (faceSrces s f0)).l b
          - (faceBBox s.pos (faceSrces s f1)).h b)
        * ((faceBBox buf (faceSrces s f0)).l b
          - (faceBBox buf (faceSrces s f1)).h b) < 0 := of_decide_eq_true hb
    obtain ⟨hd, he1, he2⟩ := interpolated_crossing
      ((faceBBox buf (faceSrces s f1)).h b) ((faceBBox s.pos (faceSrces s f1)).h b)
      ((faceBBox buf (faceSrces s f0)).l b) ((faceBBox s.pos (faceSrces s f0)).l b) hb'
    refine ⟨_, _, he1, he2, ?_, ?_⟩
    · show (if scL0H1 (faceBBox s.pos (faceSrces s f0)) (faceBBox s.pos (faceSrces s f1))
          (faceBBox buf (faceSrces s f0)) (faceBBox buf (faceSrces s f1)) b = true
          then some (((faceBBox buf (faceSrces s f1)).h b
              * ((faceBBox s.pos (faceSrces s f0)).l b - (faceBBox buf (faceSrces s f0)).l b)
            - (faceBBox buf (faceSrces s f0)).l b
              * ((faceBBox s.pos (faceSrces s f1)).h b - (faceBBox buf (faceSrces s f1)).h b))
            / (((faceBBox s.pos (faceSrces s f0)).l b - (faceBBox buf (faceSrces s f0)).l b)
              - ((faceBBox s.pos (faceSrces s f1)).h b - (faceBBox buf (faceSrces s f1)).h b))
            + shy / 2) else none) = _
      rw [if_pos hb]
    · show (if scL0H1 (faceBBox s.pos (faceSrces s f0)) (faceBBox s.pos (faceSrces s f1))
          (faceBBox buf (faceSrces s f0)) (faceBBox buf (faceSrces s f1)) b = true
          then some (((faceBBox buf (faceSrces s f1)).h b
              * ((faceBBox s.pos (faceSrces s f0)).l b - (faceBBox buf (faceSrces s f0)).l b)
            - (faceBBox buf (faceSrces s f0)).l b
              * ((faceBBox s.pos (faceSrces s f1)).h b - (faceBBox buf (faceSrces s f1)).h b))
            / (((faceBBox s.pos (faceSrces s f0)).l b - (faceBBox buf (faceSrces s f0)).l b)
              - ((faceBBox s.pos (faceSrces s f1)).h b - (faceBBox buf (faceSrces s f1)).h b))
            - shy / 2) else none) = _
      rw [if_pos hb]

/-- Concrete instantiation of `claim3_collision_plane`: the scenario's first
face pair satisfies the vanilla hypotheses, and the swapped orientation
satisfies the mirror hypotheses; both produce a plane. -/
theorem claim3_collision_plane_witness :
    (collisionPlane exSheet exPosPrev 0 1 defaultShyness).isSome = true ∧
    (collisionPlane exSheet exPosPrev 1 0 defaultShyness).isSome = true := by
  constructor
  · obtain ⟨pl, hpl, -, -, -⟩ :=
      (claim3_collision_plane exSheet exPosPrev 0 1 defaultShyness Axis.x).1
        (by decide) (by decide)
    rw [hpl]
    rfl
  · obtain ⟨pl, hpl, -, -, -⟩ :=
      (claim3_collision_plane exSheet exPosPrev 1 0 defaultShyness Axis.x).2
        (by intro b; cases b <;> decide) (by decide) (by decide)
    rw [hpl]
    rfl

/-- If the two faces of a pair share a source vertex, its position lies in
both bounding boxes at both snapshots, so no sign change can be detected on
any axis and `_collision_plane` produces no plane. -/
theorem collisionPlane_none_of_shared (s : Sheet) (buf : ℕ → Axis → ℚ) (f0 f1 : ℕ)
    (shy : ℚ) (v : ℕ) (h0 : v ∈ faceSrces s f0) (h1 : v ∈ faceSrces s f1) :
    collisionPlane s buf f0 f1 shy = none := by
  have hsc1 : allAxes.any (scL1H0 (faceBBox s.pos (faceSrces s f0))
      (faceBBox s.pos (faceSrces s f1)) (faceBBox buf (faceSrces s f0))
      (faceBBox buf (faceSrces s f1))) = false := by
    rw [List.any_eq_false]
    intro b _
    simp only [scL1H0, decide_eq_true_eq]
    intro hlt
    have c1 : (faceBBox s.pos (faceSrces s f1)).l b
        - (faceBBox s.pos (faceSrces s f0)).h b ≤ 0 := by
      have u1 := bbox_l_le s.pos (faceSrces s f1) v h1 b
      have u2 := le_bbox_h s.pos (faceSrces s f0) v h0 b
      linarith
    have c2 : (faceBBox buf (faceSrces s f1)).l b
        - (faceBBox buf (faceSrces s f0)).h b ≤ 0 := by
      have u1 := bbox_l_le buf (faceSrces s f1) v h1 b
      have u2 := le_bbox_h buf (faceSrces s f0) v h0 b
      linarith
    nlinarith
  have hsc2 : allAxes.any (scL0H1 (faceBBox s.pos (faceSrces s f0))
      (faceBBox s.pos (faceSrces s f1)) (faceBBox buf (faceSrces s f0))
      (faceBBox buf (faceSrces s f1))) = false := by
    rw [List.any_eq_false]
    intro b _
    simp only [scL0H1, decide_eq_true_eq]
    intro hlt
    have c1 : (faceBBox s.pos (faceSrces s f0)).l b
        - (faceBBox s.pos (faceSrces s f1)).h b ≤ 0 := by
      have u1 := bbox_l_le s.pos (faceSrces s f0) v h0 b
      have u2 := le_bbox_h s.pos (faceSrces s f1) v h1 b
      linarith
    have c2 : (faceBBox buf (faceSrces s f0)).l b
        - (faceBBox buf (faceSrces s f1)).h b ≤ 0 := by
      have u1 := bbox_l_le buf (faceSrces s f0) v h0 b
      have u2 := le_bbox_h buf (faceSrces s f1) v h1 b
      linarith
    nlinarith
  simp only [collisionPlane]
  rw [hsc1, if_neg (fun h => Bool.noConfusion h),
    hsc2, if_neg (fun h => Bool.noConfusion h)]

/-- A produced plane's lower/upper vertex lists are the two faces' source
vertex lists, in one of the two orientations. -/
theorem collisionPlane_some_verts (s : Sheet) (buf : ℕ → Axis → ℚ) (f0 f1 : ℕ)
    (shy : ℚ) (pl : PlaneOut) (h : collisionPlane s buf f0 f1 shy = some pl) :
    (pl.lowerVerts = faceSrces s f1 ∧ pl.upperVerts = faceSrces s f0) ∨
    (pl.lowerVerts = faceSrces s f0 ∧ pl.upperVerts = faceSrces s f1) := by
  simp only [collisionPlane] at h
  split at h
  · obtain rfl := (Option.some.inj h).symm
    exact Or.inl ⟨rfl, rfl⟩
  · split at h
    · obtain rfl := (Option.some.inj h).symm
      exact Or.inr ⟨rfl, rfl⟩
    · cases h

theorem updateLower_not_mem (tbl : ℕ → Axis → Option ℚ) (pl : PlaneOut) (v : ℕ) (a : Axis)
    (h : v ∉ pl.lowerVerts) : updateLower tbl pl v a = tbl v a := by
  unfold updateLower
  rw [if_neg h]

theorem updateUpper_not_mem (tbl : ℕ → Axis → Option ℚ) (pl : PlaneOut) (v : ℕ) (a : Axis)
    (h : v ∉ pl.upperVerts) : updateUpper tbl pl v a = tbl v a := by
  unfold updateUpper
  rw [if_neg h]

theorem foldBounds_value_none
    (upd : (ℕ → Axis → Option ℚ) → PlaneOut → ℕ → Axis → Option ℚ)
    (planes : List (Option PlaneOut)) (v : ℕ) (a : Axis)
    (hupd : ∀ tbl pl, some pl ∈ planes → upd tbl pl v a = tbl v a) :
    foldBounds upd planes v a = none := by
  suffices key : ∀ (t : ℕ → Axis → Option ℚ),
      (∀ tbl pl, some pl ∈ planes → upd tbl pl v a = tbl v a) → t v a = none →
      (planes.foldl (fun tbl pl? => match pl? with | none => tbl | some pl => upd tbl pl) t)
        v a = none by
    exact key _ hupd rfl
  clear hupd
  induction planes with
  | nil =>
    intro t _ ht
    exact ht
  | cons p rest ih =>
    intro t hu ht
    simp only [List.foldl_cons]
    rcases p with _ | pl
    · exact ih t (fun tbl pl2 hm => hu tbl pl2 (List.mem_cons_of_mem _ hm)) ht
    · refine ih (upd t pl) (fun tbl pl2 hm => hu tbl pl2 (List.mem_cons_of_mem _ hm)) ?_
      rw [hu t pl (List.mem_cons_self _ _)]
      exact ht

theorem mem_collidingVerts (s : Sheet) (facePairs : List (ℕ × ℕ)) (pr : ℕ × ℕ)
    (hpr : pr ∈ facePairs) (v : ℕ)
    (hv : v ∈ faceSrces s pr.1 ∨ v ∈ faceSrces s pr.2) :
    v ∈ collidingVertsOf s facePairs := by
  unfold collidingVertsOf
  rw [List.mem_dedup]
  rcases hv with hv | hv
  · unfold faceSrces at hv
    rcases List.mem_map.mp hv with ⟨e, he, rfl⟩
    have hef := List.mem_filter.mp he
    refine List.mem_map.mpr ⟨e, List.mem_filter.mpr ⟨hef.1, ?_⟩, rfl⟩
    rw [List.any_eq_true]
    refine ⟨pr, hpr, ?_⟩
    have : e.face = pr.1 := by simpa using hef.2
    simp [this]
  · unfold faceSrces at hv
    rcases List.mem_map.mp hv with ⟨e, he, rfl⟩
    have hef := List.mem_filter.mp he
    refine List.mem_map.mpr ⟨e, List.mem_filter.mpr ⟨hef.1, ?_⟩, rfl⟩
    rw [List.any_eq_true]
    refine ⟨pr, hpr, ?_⟩
    have : e.face = pr.2 := by simpa using hef.2
    simp [this]

/-- C5 (amended): the invariant `lower ≤ upper` holds for all bounds
produced by a single colliding face pair — a vertex with finite bounds on
both sides would be a source vertex of both faces, in which case no sign
change is detectable and no plane is produced at all — and a vertex that is
not a source vertex of any colliding face keeps its `-inf`/`+inf`
(here `none`) bounds and is unconstrained.  With two or more face pairs the
invariant can fail (see the counterexample): a vertex may receive a lower
bound from one pair above its upper bound from another. -/
theorem claim5_invariant_amended (s : Sheet) (buf : ℕ → Axis → ℚ) (f0 f1 : ℕ)
    (shy : ℚ) (v : ℕ) (a : Axis) (eps : List (ℕ × ℕ)) :
    boundsLe (foldBounds updateLower [collisionPlane s buf f0 f1 shy] v a)
      (foldBounds updateUpper [collisionPlane s buf f0 f1 shy] v a) ∧
    (v ∉ collidingVertsOf s (getIntersectingFaces s eps) →
      aggLowerOf s buf eps shy v a = none ∧ aggUpperOf s buf eps shy v a = none) := by
  constructor
  · rcases hcp : collisionPlane s buf f0 f1 shy with _ | pl
    · show boundsLe none none
      trivial
    · by_cases hvl : v ∈ pl.lowerVerts
      · by_cases hvu : v ∈ pl.upperVerts
        · exfalso
          rcases collisionPlane_some_verts s buf f0 f1 shy pl hcp with ⟨hl, hu⟩ | ⟨hl, hu⟩
          · rw [hl] at hvl
            rw [hu] at hvu
            rw [collisionPlane_none_of_shared s buf f0 f1 shy v hvu hvl] at hcp
            cases hcp
          · rw [hl] at hvl
            rw [hu] at hvu
            rw [collisionPlane_none_of_shared s buf f0 f1 shy v hvl hvu] at hcp
            cases hcp
        · have hun : foldBounds updateUpper [some pl] v a = none := by
            show updateUpper (fun _ _ => none) pl v a = none
            rw [updateUpper_not_mem _ _ _ _ hvu]
          rw [hun]
          rcases foldBounds updateLower [some pl] v a with _ | lb
          · trivial
          · trivial
      · have hln : foldBounds updateLower [some pl] v a = none := by
          show updateLower (fun _ _ => none) pl v a = none
          rw [updateLower_not_mem _ _ _ _ hvl]
        rw [hln]
        trivial
  · intro hnv
    constructor
    · apply foldBounds_value_none
      intro tbl pl hm
      apply updateLower_not_mem
      intro hvl
      unfold planesOf at hm
      rcases List.mem_map.mp hm with ⟨pr, hpr, hpl⟩
      rcases collisionPlane_some_verts s buf pr.1 pr.2 shy pl hpl with ⟨hl, _⟩ | ⟨hl, _⟩
      · exact hnv (mem_collidingVerts s _ pr hpr v (Or.inr (hl ▸ hvl)))
      · exact hnv (mem_collidingVerts s _ pr hpr v (Or.inl (hl ▸ hvl)))
    · apply foldBounds_value_none
      intro tbl pl hm
      apply updateUpper_not_mem
      intro hvu
      unfold planesOf at hm
      rcases List.mem_map.mp hm with ⟨pr, hpr, hpl⟩
      rcases collisionPlane_some_verts s buf pr.1 pr.2 shy pl hpl with ⟨_, hu⟩ | ⟨_, hu⟩
      · exact hnv (mem_collidingVerts s _ pr hpr v (Or.inl (hu ▸ hvu)))
      · exact hnv (mem_collidingVerts s _ pr hpr v (Or.inr (hu ▸ hvu)))

/-- C5 counterexample: in the two-pair scenario, vertex 3 receives the
finite lower bound `20 + shyness/2` from the first pair and the finite
upper bound `14 - shyness/2` from the second, so its aggregated lower bound
exceeds its aggregated upper bound. -/
theorem claim5_invariant_counterexample :
    aggLowerOf exSheet exPosPrev exPairs defaultShyness 3 Axis.x
        = some (20 + defaultShyness / 2) ∧
    aggUpperOf exSheet exPosPrev exPairs defaultShyness 3 Axis.x
        = some (14 - defaultShyness / 2) ∧
    ¬(20 + defaultShyness / 2 ≤ 14 - defaultShyness / 2) :=
  ⟨by decide, by decide, by decide⟩

/-- Concrete instantiation of `claim5_invariant_amended`: the single-pair
bounds of the scenario's first pair satisfy the invariant at vertex 3, and
vertex 99, not part of any colliding face, keeps unconstrained bounds. -/
theorem claim5_invariant_amended_witness :
    boundsLe (foldBounds updateLower [collisionPlane exSheet exPosPrev 0 1 defaultShyness]
        3 Axis.x)
      (foldBounds updateUpper [collisionPlane exSheet exPosPrev 0 1 defaultShyness]
        3 Axis.x) ∧
    (aggLowerOf exSheet exPosPrev exPairs defaultShyness 99 Axis.x = none ∧
      aggUpperOf exSheet exPosPrev exPairs defaultShyness 99 Axis.x = none) :=
  ⟨(claim5_invariant_amended exSheet exPosPrev 0 1 defaultShyness 3 Axis.x exPairs).1,
   (claim5_invariant_amended exSheet exPosPrev 0 1 defaultShyness 99 Axis.x exPairs).2
     (by decide)⟩

theorem applyWrites_append (p : ℕ → Axis → ℚ) (l1 l2 : List (ℕ × (Axis → ℚ))) :
    applyWrites p (l1 ++ l2) = applyWrites (applyWrites p l1) l2 := by
  unfold applyWrites
  rw [List.foldl_append]

theorem applyWrites_not_mem (p : ℕ → Axis → ℚ) (ws : List (ℕ × (Axis → ℚ))) (v : ℕ)
    (a : Axis) (h : v ∉ ws.map Prod.fst) : applyWrites p ws v a = p v a := by
  induction ws generalizing p with
  | nil => rfl
  | cons w rest ih =>
    simp only [List.map_cons, List.mem_cons, not_or] at h
    show applyWrites (fun u b => if u = w.1 then w.2 b else p u b) rest v a = p v a
    rw [ih _ h.2]
    exact if_neg h.1

theorem applyWrites_map_mem (p : ℕ → Axis → ℚ) (keys : List ℕ) (f : ℕ → Axis → ℚ)
    (v : ℕ) (a : Axis) (hnd : keys.Nodup) (hv : v ∈ keys) :
    applyWrites p (keys.map (fun u => (u, fun b => f u b))) v a = f v a := by
  induction keys generalizing p with
  | nil => cases hv
  | cons k rest ih =>
    rw [List.map_cons]
    show applyWrites (fun u b => if u = k then f k b else p u b)
      (rest.map (fun u => (u, fun b => f u b))) v a = f v a
    rcases List.mem_cons.mp hv with rfl | hv'
    · have hnr : v ∉ rest := (List.nodup_cons.mp hnd).1
      rw [applyWrites_not_mem _ _ _ _ (by simpa using hnr)]
      simp
    · exact ih _ (List.nodup_cons.mp hnd).2 hv'

theorem lowerKeep_nodup (s : Sheet) (buf : ℕ → Axis → ℚ) (eps : List (ℕ × ℕ)) (shy : ℚ) :
    (lowerKeepOf s buf eps shy).Nodup :=
  (List.nodup_dedup _).filter _

theorem upperKeep_nodup (s : Sheet) (buf : ℕ → Axis → ℚ) (eps : List (ℕ × ℕ)) (shy : ℚ) :
    (upperKeepOf s buf eps shy).Nodup :=
  (List.nodup_dedup _).filter _

/-- C4 (amended): when at least one collision plane is found, the final
position of each vertex on each axis is characterised as follows.  A vertex
with at least one finite upper bound gets `min(current, aggregated upper)`
— so it satisfies its upper bounds, is left unchanged where it already did,
and is moved exactly to a violated upper bound, but its lower bounds can
stay violated, because the `correction_upper` rows are written after (and
so overwrite) the `correction_lower` rows for any vertex present in both
tables.  A vertex with only finite lower bounds gets
`max(current, aggregated lower)`.  All other vertices are unchanged. -/
theorem claim4_clamp_amended (s : Sheet) (buf : ℕ → Axis → ℚ) (eps : List (ℕ × ℕ))
    (shy : ℚ) (v : ℕ) (a : Axis) (hfound : planeFoundOf s buf eps shy = true) :
    (v ∈ upperKeepOf s buf eps shy →
      (solveCollisions s buf eps shy).1.pos v a
        = match aggUpperOf s buf eps shy v a with
          | none => s.pos v a
          | some ub => min (s.pos v a) ub) ∧
    (v ∉ upperKeepOf s buf eps shy → v ∈ lowerKeepOf s buf eps shy →
      (solveCollisions s buf eps shy).1.pos v a
        = match aggLowerOf s buf eps shy v a with
          | none => s.pos v a
          | some lb => max (s.pos v a) lb) ∧
    (v ∉ upperKeepOf s buf eps shy → v ∉ lowerKeepOf s buf eps shy →
      (solveCollisions s buf eps shy).1.pos v a = s.pos v a) := by
  have hpos : (solveCollisions s buf eps shy).1.pos
      = applyWrites s.pos
        ((lowerKeepOf s buf eps shy).map (fun u =>
            (u, fun b => match aggLowerOf s buf eps shy u b with
              | none => s.pos u b
              | some lb => max (s.pos u b) lb))
          ++ (upperKeepOf s buf eps shy).map (fun u =>
            (u, fun b => match aggUpperOf s buf eps shy u b with
              | none => s.pos u b
              | some ub => min (s.pos u b) ub))) := by
    unfold solveCollisions
    rw [hfound]
    rfl
  rw [hpos, applyWrites_append]
  refine ⟨?_, ?_, ?_⟩
  · intro hvu
    exact applyWrites_map_mem _ _ _ v a (upperKeep_nodup s buf eps shy) hvu
  · intro hvu hvl
    rw [applyWrites_not_mem _ _ _ _ (by simpa using hvu)]
    exact applyWrites_map_mem _ _ _ v a (lowerKeep_nodup s buf eps shy) hvl
  · intro hvu hvl
    rw [applyWrites_not_mem _ _ _ _ (by simpa using hvu)]
    rw [applyWrites_not_mem _ _ _ _ (by simpa using hvl)]

/-- C4 counterexample: in the two-pair scenario a plane is found and vertex
3 carries the aggregated bounds `[20 + shyness/2, 14 - shyness/2]` on the x
axis, yet its final position is 4 — the violated lower bound was not
applied (its row was overwritten by the upper correction), so the final
position does not lie within the aggregated bounds. -/
theorem claim4_clamp_counterexample :
    planeFoundOf exSheet exPosPrev exPairs defaultShyness = true ∧
    aggLowerOf exSheet exPosPrev exPairs defaultShyness 3 Axis.x
        = some (20 + defaultShyness / 2) ∧
    aggUpperOf exSheet exPosPrev exPairs defaultShyness 3 Axis.x
        = some (14 - defaultShyness / 2) ∧
    (solveCollisions exSheet exPosPrev exPairs defaultShyness).1.pos 3 Axis.x = 4 ∧
    ¬(20 + defaultShyness / 2 ≤ 4 ∧ (4 : ℚ) ≤ 14 - defaultShyness / 2) :=
  ⟨by decide, by decide, by decide, by decide, by decide⟩

/-- Concrete instantiation of `claim4_clamp_amended` at vertex 3 of the
scenario: the final position is the upper-clamped value. -/
theorem claim4_clamp_amended_witness :
    (solveCollisions exSheet exPosPrev exPairs defaultShyness).1.pos 3 Axis.x
      = match aggUpperOf exSheet exPosPrev exPairs defaultShyness 3 Axis.x with
        | none => exSheet.pos 3 Axis.x
        | some ub => min (exSheet.pos 3 Axis.x) ub :=
  (claim4_clamp_amended exSheet exPosPrev exPairs defaultShyness 3 Axis.x (by decide)).1
    (by decide)
